import Mathlib

/-!
Verification development for the LittleSteps Forecaster repository.

The embedding follows the source files:
* `shared/schema.ts` — the two table row types and the zod insert schemas;
* `client/src/pages/Dashboard.tsx` — the forecast engine
  (`getClassroomForChild`, `forecastStats`, `trendData`, `capacityInsights`,
  the aggregate totals);
* `server/storage.ts` / `server/routes.ts` — the store operations and the
  HTTP handlers for the classrooms endpoints.

Calendar dates are modelled at day granularity, months 0-based as in
JavaScript `Date`. The date-fns helpers used by the dashboard
(`differenceInMonths`, `addMonths`, `format(_, "MMM yy")`, `parseISO`) are
embedded below; a stored ISO date string is modelled as the calendar date it
parses to. JavaScript floating-point arithmetic on enrolment ratios and
percentages is modelled as exact rational arithmetic.
-/

namespace LittleSteps

/-- Calendar date at day granularity: `month` is 0-based (JavaScript `Date`
convention, 0 = January) and `day` is 1-based. -/
structure Date where
  year : Int
  month : Int
  day : Int
deriving DecidableEq, Repr

def isLeapYear (y : Int) : Bool :=
  y % 4 == 0 && (y % 100 != 0 || y % 400 == 0)

/-- Number of days of 0-based month `m` of year `y`. -/
def daysInMonth (y m : Int) : Int :=
  if m == 1 then (if isLeapYear y then 29 else 28)
  else if m == 3 || m == 5 || m == 8 || m == 10 then 30
  else 31

/-- Normalise a (year, month, day) triple the way the JavaScript `Date`
constructor does: month overflow moves into the year, then a day past the end
of the month rolls into the following month. The only day overflow arising in
this development is at most 3 days (from `setDate 30` on February or from a
day-of-month of at most 31), so one roll suffices. -/
def normDate (y m d : Int) : Date :=
  let y1 := y + m.fdiv 12
  let m1 := m.emod 12
  if d > daysInMonth y1 m1 then
    let d2 := d - daysInMonth y1 m1
    let y2 := y1 + (m1 + 1).fdiv 12
    let m2 := (m1 + 1).emod 12
    ⟨y2, m2, d2⟩
  else ⟨y1, m1, d⟩

/-- JavaScript `Date.prototype.setDate`. -/
def setDate (t : Date) (n : Int) : Date := normDate t.year t.month n

/-- JavaScript `Date.prototype.setMonth`. -/
def setMonth (t : Date) (m : Int) : Date := normDate t.year m t.day

/-- date-fns `addMonths`: shift the month and clamp the day-of-month to the
length of the target month. -/
def addMonths (t : Date) (k : Int) : Date :=
  let y1 := t.year + (t.month + k).fdiv 12
  let m1 := (t.month + k).emod 12
  ⟨y1, m1, min t.day (daysInMonth y1 m1)⟩

/-- date-fns `compareAsc`: −1, 0 or 1 by chronological order. -/
def compareAsc (a b : Date) : Int :=
  if a.year < b.year then -1 else if b.year < a.year then 1
  else if a.month < b.month then -1 else if b.month < a.month then 1
  else if a.day < b.day then -1 else if b.day < a.day then 1
  else 0

def differenceInCalendarMonths (l r : Date) : Int :=
  (l.year - r.year) * 12 + (l.month - r.month)

def isLastDayOfMonth (t : Date) : Bool :=
  t.day == daysInMonth t.year t.month

/-- date-fns `differenceInMonths` (v2): the number of whole months between
two dates, including its end-of-February widening (`setDate 30`), the
month-shift comparison and the last-day-of-month correction. -/
def differenceInMonths (l r : Date) : Int :=
  let sign := compareAsc l r
  let difference : Int := (differenceInCalendarMonths l r).natAbs
  if difference < 1 then 0
  else
    let lw := if l.month == 1 && l.day > 27 then setDate l 30 else l
    let lw2 := setMonth lw (lw.month - sign * difference)
    let isLastMonthNotFull := compareAsc lw2 r == -sign
    let isLastMonthNotFull :=
      if isLastDayOfMonth l && difference == 1 && compareAsc l r == 1 then false
      else isLastMonthNotFull
    sign * (difference - (if isLastMonthNotFull then 1 else 0))

def monthShortName (m : Int) : String :=
  if m == 0 then "Jan" else if m == 1 then "Feb" else if m == 2 then "Mar"
  else if m == 3 then "Apr" else if m == 4 then "May" else if m == 5 then "Jun"
  else if m == 6 then "Jul" else if m == 7 then "Aug" else if m == 8 then "Sep"
  else if m == 9 then "Oct" else if m == 10 then "Nov" else "Dec"

def twoDigitYear (y : Int) : String :=
  let n := y.emod 100
  if n < 10 then "0" ++ toString n else toString n

/-- date-fns `format(t, "MMM yy")`, the trend-point month label. -/
def formatMMMyy (t : Date) : String :=
  monthShortName t.month ++ " " ++ twoDigitYear t.year

/-- A row of the `classrooms` table (shared/schema.ts). -/
structure Classroom where
  id : Int
  name : String
  color : String
  minAgeMonths : Int
  maxAgeMonths : Int
  capacity : Int
  ratio : String
deriving DecidableEq, Repr

/-- A row of the `children` table (shared/schema.ts). The stored ISO date
strings `birthDate` and `enrollmentDate` are modelled as the calendar dates
they parse to via date-fns `parseISO`. -/
structure Child where
  id : Int
  name : String
  birthDate : Date
  enrollmentDate : Date
deriving DecidableEq, Repr

/-- Dashboard `getClassroomForChild`: the id of the first classroom in list
order whose `[minAgeMonths, maxAgeMonths)` band contains the child's
whole-month age at the target date, or `none`. -/
def getClassroomForChild (child : Child) (targetDate : Date)
    (classrooms : List Classroom) : Option Int :=
  let ageInMonths := differenceInMonths targetDate child.birthDate
  (classrooms.find? (fun c =>
      decide (ageInMonths ≥ c.minAgeMonths) && decide (ageInMonths < c.maxAgeMonths))).map
    (fun c => c.id)

/-- Dashboard `getChildAgeInMonths`. -/
def getChildAgeInMonths (birthDate : Date) (targetDate : Date) : Int :=
  differenceInMonths targetDate birthDate

/-- The per-classroom record built by `forecastStats`. -/
structure ClassStats where
  enrolled : List Child
  graduatingSoon : List Child
  graduatingNextMonth : Int
deriving DecidableEq, Repr

/-- The initial `stats` object of `forecastStats`: one empty record per
classroom id; any other key is absent. -/
def statsInit (classrooms : List Classroom) : Int → Option ClassStats :=
  fun k => if classrooms.any (fun c => c.id == k) then some ⟨[], [], 0⟩ else none

/-- The `(classroom.maxAgeMonths - ageNow) <= 3` test of the `forecastStats`
loop, with `classroom = classrooms.find(c => c.id === classId)`. -/
def soonCond (classrooms : List Classroom) (d : Date) (cid : Int) (child : Child) : Bool :=
  match classrooms.find? (fun c => c.id == cid) with
  | some cl => decide (cl.maxAgeMonths - getChildAgeInMonths child.birthDate d ≤ 3)
  | none => false

/-- The `(classroom.maxAgeMonths - ageNow) <= 1` test of the `forecastStats`
loop. -/
def nextCond (classrooms : List Classroom) (d : Date) (cid : Int) (child : Child) : Bool :=
  match classrooms.find? (fun c => c.id == cid) with
  | some cl => decide (cl.maxAgeMonths - getChildAgeInMonths child.birthDate d ≤ 1)
  | none => false

/-- One iteration of the `children.forEach` loop of `forecastStats`. -/
def statsStep (classrooms : List Classroom) (d : Date)
    (st : Int → Option ClassStats) (child : Child) : Int → Option ClassStats :=
  match getClassroomForChild child d classrooms with
  | none => st
  | some cid =>
    match st cid with
    | none => st
    | some s =>
      let soon := soonCond classrooms d cid child
      let next := nextCond classrooms d cid child
      let s2 : ClassStats :=
        { enrolled := s.enrolled ++ [child],
          graduatingSoon := if soon then s.graduatingSoon ++ [child] else s.graduatingSoon,
          graduatingNextMonth :=
            if soon && next then s.graduatingNextMonth + 1 else s.graduatingNextMonth }
      fun k => if k == cid then some s2 else st k

/-- The descending-age sort applied to each roster at the end of
`forecastStats` (JavaScript's stable sort with comparator `ageOf b - ageOf a`). -/
def sortByAgeDesc (d : Date) (l : List Child) : List Child :=
  l.mergeSort (fun a b =>
    decide (getChildAgeInMonths b.birthDate d ≤ getChildAgeInMonths a.birthDate d))

/-- Dashboard `forecastStats`: bucket every child into its classroom at the
forecast date, record graduating-soon / graduating-next-month, then sort each
roster by descending age. -/
def forecastStats (classrooms : List Classroom) (children : List Child)
    (forecastDate : Date) : Int → Option ClassStats :=
  let st := children.foldl (statsStep classrooms forecastDate) (statsInit classrooms)
  fun k => (st k).map (fun s => { s with enrolled := sortByAgeDesc forecastDate s.enrolled })

/-- The enrolled roster of the classroom keyed `k` at date `d` (empty when no
classroom in the list has that id). -/
def roster (classrooms : List Classroom) (children : List Child) (d : Date)
    (k : Int) : List Child :=
  match forecastStats classrooms children d k with
  | some s => s.enrolled
  | none => []

/-- Membership test the `forecastStats` loop actually applies per child and
key: the child's computed classroom id is `k`. -/
def enrolledPred (classrooms : List Classroom) (d : Date) (k : Int) (child : Child) : Bool :=
  getClassroomForChild child d classrooms == some k

/-- One iteration of the `children.forEach` counting loop inside `trendData`:
`monthStats[classId]++` when the child has a computed classroom. -/
def countStep (classrooms : List Classroom) (d : Date) (st : Int → Int)
    (child : Child) : Int → Int :=
  match getClassroomForChild child d classrooms with
  | none => st
  | some cid => fun k => if k == cid then st k + 1 else st k

/-- The `monthStats` counting pass inside `trendData`: the full bucketing
procedure re-run at the (shifted) date `d`, one counter per classroom id. -/
def monthCounts (classrooms : List Classroom) (children : List Child) (d : Date) :
    Int → Int :=
  children.foldl (countStep classrooms d) (fun _ => 0)

/-- One point of a classroom's trend series. -/
structure TrendPoint where
  month : String
  enrolled : Int
  capacity : Int
  isForecast : Bool
deriving DecidableEq, Repr

/-- The month offsets of the `for (let m = -12; m <= 12; m++)` loop. -/
def offsets : List Int := (List.range 25).map (fun (i : Nat) => (i : Int) - 12)

/-- The `classrooms.forEach` push inside the `trendData` month loop:
`data[c.id].push({month, enrolled, capacity, isForecast})`. -/
def trendPush (monthLabel : String) (monthStats : Int → Int) (m : Int)
    (data : Int → List TrendPoint) (c : Classroom) : Int → List TrendPoint :=
  fun k =>
    if k == c.id then
      data k ++ [⟨monthLabel, monthStats c.id, c.capacity, decide (m > 0)⟩]
    else data k

/-- One iteration of the `for (let m = -12; m <= 12; m++)` loop of
`trendData`. -/
def trendMonth (classrooms : List Classroom) (children : List Child)
    (forecastDate : Date) (data : Int → List TrendPoint) (m : Int) :
    Int → List TrendPoint :=
  let targetDate := addMonths forecastDate m
  let monthLabel := formatMMMyy targetDate
  let monthStats := monthCounts classrooms children targetDate
  classrooms.foldl (trendPush monthLabel monthStats m) data

/-- Dashboard `trendData`, keyed by classroom id (a key outside the classroom
id set is never read by the presentation layer and is modelled as empty). -/
def trendData (classrooms : List Classroom) (children : List Child)
    (forecastDate : Date) : Int → List TrendPoint :=
  offsets.foldl (trendMonth classrooms children forecastDate) (fun _ => [])

/-- The trend points that the month-`m` iteration appends at key `k`: one per
classroom whose id is `k`. -/
def trendPointsAt (classrooms : List Classroom) (children : List Child)
    (forecastDate : Date) (m : Int) (k : Int) : List TrendPoint :=
  (classrooms.filter (fun c => k == c.id)).map
    (fun c =>
      ⟨formatMMMyy (addMonths forecastDate m),
       monthCounts classrooms children (addMonths forecastDate m) c.id,
       c.capacity, decide (m > 0)⟩)

inductive InsightType where
  | critical
  | warning
  | opportunity
deriving DecidableEq, Repr

structure Insight where
  type : InsightType
  message : String
  classroomId : Int
deriving DecidableEq, Repr

/-- The critical-alert message text built by `capacityInsights`. -/
def criticalMessage (name : String) (vacancies : Int) : String :=
  let a := vacancies.natAbs
  name ++ " is over capacity by " ++ toString a ++ " spot" ++
    (if a == 1 then "" else "s") ++ "."

/-- The warning-alert message text built by `capacityInsights`. -/
def warningMessage (name : String) (vacancies : Int) : String :=
  name ++ " is nearing capacity (" ++ toString vacancies ++ " spot" ++
    (if vacancies == 1 then "" else "s") ++ " left)."

/-- The opportunity-alert message text built by `capacityInsights`. -/
def opportunityMessage (name : String) (vacancies : Int) : String :=
  name ++ " has high availability (" ++ toString vacancies ++ " vacancies). Consider marketing."

/-- The body of the `capacityInsights` loop for one classroom: the first
matching rule of critical / warning / opportunity, or no alert. The
floating-point ratio `enrolled / capacity` is modelled as an exact rational. -/
def classroomInsight (classrooms : List Classroom) (children : List Child)
    (d : Date) (c : Classroom) : Option Insight :=
  match forecastStats classrooms children d c.id with
  | none => none
  | some s =>
    let enrolled : Int := s.enrolled.length
    let r : ℚ := (enrolled : ℚ) / (c.capacity : ℚ)
    let vacancies : Int := c.capacity - enrolled
    if 1 < r then some ⟨.critical, criticalMessage c.name vacancies, c.id⟩
    else if (9 : ℚ)/10 ≤ r then some ⟨.warning, warningMessage c.name vacancies, c.id⟩
    else if r ≤ (6 : ℚ)/10 then some ⟨.opportunity, opportunityMessage c.name vacancies, c.id⟩
    else none

/-- Dashboard `capacityInsights`: at most one alert pushed per classroom, in
classroom list order. -/
def capacityInsights (classrooms : List Classroom) (children : List Child)
    (d : Date) : List Insight :=
  classrooms.filterMap (classroomInsight classrooms children d)

/-- The distinct classroom ids, i.e. the key set of the `forecastStats`
object (`Object.values` enumerates each key once). -/
def statKeys (classrooms : List Classroom) : List Int :=
  (classrooms.map (fun c => c.id)).dedup

/-- The `graduatingSoon` roster of the classroom keyed `k`. -/
def graduatingSoonList (classrooms : List Classroom) (children : List Child)
    (d : Date) (k : Int) : List Child :=
  match forecastStats classrooms children d k with
  | some s => s.graduatingSoon
  | none => []

/-- The `graduatingNextMonth` badge count of the classroom keyed `k`. -/
def graduatingNextMonthCount (classrooms : List Classroom) (children : List Child)
    (d : Date) (k : Int) : Int :=
  match forecastStats classrooms children d k with
  | some s => s.graduatingNextMonth
  | none => 0

/-- A request body for the classrooms endpoints. drizzle-zod's
`insertClassroomSchema` requires each non-id column to be present with the
column's type, so a body is modelled as six optional well-typed fields
(`none` = field absent; a field of the wrong JSON type is rejected by zod
exactly as an absent one is, before any value is used). The same shape read
through `insertClassroomSchema.partial()` is the PATCH body. -/
structure ClassroomPayload where
  name : Option String
  color : Option String
  minAgeMonths : Option Int
  maxAgeMonths : Option Int
  capacity : Option Int
  ratio : Option String
deriving DecidableEq, Repr

/-- The parsed value of `insertClassroomSchema` (the classroom columns minus
`id`). -/
structure InsertClassroom where
  name : String
  color : String
  minAgeMonths : Int
  maxAgeMonths : Int
  capacity : Int
  ratio : String
deriving DecidableEq, Repr

/-- `insertClassroomSchema.safeParse`: succeeds iff every non-id column is
present (with its type); the schema carries no further constraint — in
particular no positivity bound on `capacity`. -/
def insertClassroomSafeParse (p : ClassroomPayload) : Option InsertClassroom :=
  match p.name, p.color, p.minAgeMonths, p.maxAgeMonths, p.capacity, p.ratio with
  | some n, some co, some mi, some ma, some cap, some r => some ⟨n, co, mi, ma, cap, r⟩
  | _, _, _, _, _, _ => none

/-- The classrooms table together with the next value of its serial id
sequence. -/
structure Store where
  classroomsTbl : List Classroom
  nextClassroomId : Int
deriving DecidableEq, Repr

/-- `DatabaseStorage.createClassroom`: INSERT with the serial id, returning
the created row. -/
def createClassroom (st : Store) (d : InsertClassroom) : Classroom × Store :=
  let c : Classroom :=
    ⟨st.nextClassroomId, d.name, d.color, d.minAgeMonths, d.maxAgeMonths, d.capacity, d.ratio⟩
  (c, ⟨st.classroomsTbl ++ [c], st.nextClassroomId + 1⟩)

/-- `POST /api/classrooms`: the HTTP status and the resulting store. -/
def postClassrooms (st : Store) (body : ClassroomPayload) : Nat × Store :=
  match insertClassroomSafeParse body with
  | none => (400, st)
  | some d => (201, (createClassroom st d).2)

/-- drizzle's `mapUpdateSet` guard: whether the patch object carries at least
one defined value (`db.update(...).set(data)` throws when it does not). -/
def ClassroomPayload.hasValues (p : ClassroomPayload) : Bool :=
  p.name.isSome || p.color.isSome || p.minAgeMonths.isSome ||
    p.maxAgeMonths.isSome || p.capacity.isSome || p.ratio.isSome

/-- drizzle `.set(data)` with `data` from `insertClassroomSchema.partial()`:
only the fields present in the patch overwrite; `id` is never part of the
patch (the schema omits it). -/
def applyClassroomPatch (p : ClassroomPayload) (c : Classroom) : Classroom :=
  { c with
    name := p.name.getD c.name,
    color := p.color.getD c.color,
    minAgeMonths := p.minAgeMonths.getD c.minAgeMonths,
    maxAgeMonths := p.maxAgeMonths.getD c.maxAgeMonths,
    capacity := p.capacity.getD c.capacity,
    ratio := p.ratio.getD c.ratio }

/-- `DatabaseStorage.updateClassroom`:
`db.update(classrooms).set(data).where(eq(id)).returning()`. drizzle's
`mapUpdateSet` throws `No values to set` when `data` has no defined entry;
otherwise UPDATE the rows whose `id` matches and return the first updated row
(or `none`), together with the updated table. -/
def updateClassroom (tbl : List Classroom) (i : Int) (p : ClassroomPayload) :
    Except String (Option Classroom × List Classroom) :=
  if p.hasValues then
    let tbl2 := tbl.map (fun c => if c.id == i then applyClassroomPatch p c else c)
    .ok ((tbl2.filter (fun c => c.id == i)).head?, tbl2)
  else .error "No values to set"

/-- `PATCH /api/classrooms/:id` with a numeric `:id` and a body accepted by
`insertClassroomSchema.partial()`: the HTTP status, the response record and
the resulting store; an exception thrown by the update (the empty patch) is
not caught by the route and propagates. -/
def patchClassroom (st : Store) (i : Int) (p : ClassroomPayload) :
    Except String (Nat × Option Classroom × Store) :=
  match updateClassroom st.classroomsTbl i p with
  | .error e => .error e
  | .ok (none, tbl2) => .ok (404, none, { st with classroomsTbl := tbl2 })
  | .ok (some c, tbl2) => .ok (200, some c, { st with classroomsTbl := tbl2 })

/-! Sample records used by the witness statements (drawn from the seeded
classroom bands). -/

def infantsC : Classroom := ⟨1, "Infants", "bg-blue-100", 0, 12, 8, "1:4"⟩

def wobblersC : Classroom := ⟨2, "Wobblers", "bg-green-100", 12, 24, 10, "1:5"⟩

/-- Target date 15 December 2025. -/
def sampleTarget : Date := ⟨2025, 11, 15⟩

/-- Born 15 January 2025: whole-month age 11 at `sampleTarget`. -/
def childAlpha : Child := ⟨1, "Emma S.", ⟨2025, 0, 15⟩, ⟨2025, 3, 1⟩⟩

/-- Born 15 June 2024: whole-month age 18 at `sampleTarget`. -/
def childBeta : Child := ⟨2, "Liam J.", ⟨2024, 5, 15⟩, ⟨2024, 10, 1⟩⟩

/-- Born 15 May 2025: whole-month age 7 at `sampleTarget`. -/
def childGamma : Child := ⟨3, "Olivia W.", ⟨2025, 4, 15⟩, ⟨2025, 7, 1⟩⟩

/-- A capacity-1 infant room, for the over-capacity scenarios. -/
def tinyC : Classroom := ⟨3, "Tiny", "bg-red-100", 0, 12, 1, "1:1"⟩

/-! Characterisation lemmas for the engine's folds. -/

/-- A computed classroom id is the id of some classroom of the list. -/
theorem getClassroomForChild_any {child : Child} {d : Date}
    {classrooms : List Classroom} {k : Int}
    (h : getClassroomForChild child d classrooms = some k) :
    classrooms.any (fun c => c.id == k) = true := by
  unfold getClassroomForChild at h
  rcases Option.map_eq_some'.1 h with ⟨c, hc, hk⟩
  exact List.any_eq_true.2 ⟨c, List.mem_of_find?_eq_some hc, by simp [hk]⟩

/-- What one pass of the `forecastStats` loop leaves at key `k`: the children
assigned to `k` are appended to the roster, those of them within three months
of the band's upper bound to the graduating-soon list, and those within one
month are counted. -/
theorem foldl_statsStep_char (classrooms : List Classroom) (d : Date)
    (children : List Child) (st : Int → Option ClassStats) (k : Int) :
    (children.foldl (statsStep classrooms d) st) k =
      (st k).map (fun s =>
        { enrolled := s.enrolled ++ children.filter (enrolledPred classrooms d k),
          graduatingSoon := s.graduatingSoon ++
            children.filter (fun ch =>
              enrolledPred classrooms d k ch && soonCond classrooms d k ch),
          graduatingNextMonth := s.graduatingNextMonth +
            (children.countP (fun ch =>
              enrolledPred classrooms d k ch &&
                (soonCond classrooms d k ch && nextCond classrooms d k ch)) : Int) }) := by
  induction children generalizing st with
  | nil => cases h : st k <;> simp [h]
  | cons ch chs ih =>
    rw [List.foldl_cons, ih]
    cases hA : getClassroomForChild ch d classrooms with
    | none =>
      have hp : enrolledPred classrooms d k ch = false := by
        simp [enrolledPred, hA]
      simp only [statsStep, hA]
      cases h : st k <;>
        simp [h, List.filter_cons, List.countP_cons, hp]
    | some cid =>
      by_cases hk : k = cid
      · subst hk
        have hp : enrolledPred classrooms d k ch = true := by
          simp [enrolledPred, hA]
        cases h : st k with
        | none => simp only [statsStep, hA, h]; simp [h]
        | some s =>
          simp only [statsStep, hA, h]
          simp only [beq_self_eq_true, if_true, h, Option.map_some',
            List.filter_cons, List.countP_cons, hp, Bool.true_and]
          cases hsoon : soonCond classrooms d k ch <;>
            cases hnext : nextCond classrooms d k ch <;>
              simp [hsoon, hnext] <;> omega
      · have hp : enrolledPred classrooms d k ch = false := by
          simp [enrolledPred, hA]
          exact fun h => absurd h.symm hk
        have hstep : (statsStep classrooms d st ch) k = st k := by
          simp only [statsStep, hA]
          cases hS : st cid with
          | none => rfl
          | some s => simp [beq_iff_eq, hk]
        rw [hstep]
        cases h : st k <;>
          simp [h, List.filter_cons, List.countP_cons, hp]

/-- `forecastStats` at a key that is some classroom's id. -/
theorem forecastStats_char (classrooms : List Classroom) (children : List Child)
    (d : Date) (k : Int) (hk : classrooms.any (fun c => c.id == k) = true) :
    forecastStats classrooms children d k =
      some { enrolled := sortByAgeDesc d (children.filter (enrolledPred classrooms d k)),
             graduatingSoon := children.filter (fun ch =>
               enrolledPred classrooms d k ch && soonCond classrooms d k ch),
             graduatingNextMonth := (children.countP (fun ch =>
               enrolledPred classrooms d k ch &&
                 (soonCond classrooms d k ch && nextCond classrooms d k ch)) : Int) } := by
  unfold forecastStats
  rw [foldl_statsStep_char]
  simp [statsInit, hk]

/-- `forecastStats` at a key that is no classroom's id. -/
theorem forecastStats_none (classrooms : List Classroom) (children : List Child)
    (d : Date) (k : Int) (hk : ¬ classrooms.any (fun c => c.id == k) = true) :
    forecastStats classrooms children d k = none := by
  unfold forecastStats
  rw [foldl_statsStep_char]
  simp [statsInit, hk]

/-- The roster at a classroom id is the age-sorted filter of the child list. -/
theorem roster_eq (classrooms : List Classroom) (children : List Child)
    (d : Date) (k : Int) (hk : classrooms.any (fun c => c.id == k) = true) :
    roster classrooms children d k =
      sortByAgeDesc d (children.filter (enrolledPred classrooms d k)) := by
  unfold roster
  rw [forecastStats_char classrooms children d k hk]

/-- Roster membership at any key: a child is on the roster keyed `k` exactly
when it is in the child list and its computed classroom id is `k`. -/
theorem mem_roster_iff (classrooms : List Classroom) (children : List Child)
    (d : Date) (k : Int) (ch : Child) :
    ch ∈ roster classrooms children d k ↔
      ch ∈ children ∧ getClassroomForChild ch d classrooms = some k := by
  by_cases hk : classrooms.any (fun c => c.id == k) = true
  · rw [roster_eq classrooms children d k hk]
    unfold sortByAgeDesc
    rw [List.mem_mergeSort, List.mem_filter]
    simp [enrolledPred]
  · constructor
    · intro h
      rw [roster, forecastStats_none classrooms children d k hk] at h
      simp at h
    · rintro ⟨-, h⟩
      exact absurd (getClassroomForChild_any h) hk

/-- The roster's length is the number of children assigned to the key. -/
theorem roster_length (classrooms : List Classroom) (children : List Child)
    (d : Date) (k : Int) (hk : classrooms.any (fun c => c.id == k) = true) :
    (roster classrooms children d k).length =
      children.countP (enrolledPred classrooms d k) := by
  rw [roster_eq classrooms children d k hk]
  unfold sortByAgeDesc
  rw [List.length_mergeSort, ← List.countP_eq_length_filter]

/-- What the counting pass of `trendData` leaves at key `k`. -/
theorem foldl_countStep_char (classrooms : List Classroom) (d : Date)
    (children : List Child) (st : Int → Int) (k : Int) :
    (children.foldl (countStep classrooms d) st) k =
      st k + (children.countP (enrolledPred classrooms d k) : Int) := by
  induction children generalizing st with
  | nil => simp
  | cons ch chs ih =>
    rw [List.foldl_cons, ih]
    cases hA : getClassroomForChild ch d classrooms with
    | none =>
      have hp : enrolledPred classrooms d k ch = false := by
        simp [enrolledPred, hA]
      simp [countStep, hA, List.countP_cons, hp]
    | some cid =>
      by_cases hk : k = cid
      · subst hk
        have hp : enrolledPred classrooms d k ch = true := by
          simp [enrolledPred, hA]
        simp [countStep, hA, List.countP_cons, hp]
        omega
      · have hp : enrolledPred classrooms d k ch = false := by
          simp [enrolledPred, hA]
          exact fun h => absurd h.symm hk
        simp [countStep, hA, List.countP_cons, hp, hk]

/-- The count at a classroom id is the number of children assigned to it. -/
theorem monthCounts_char (classrooms : List Classroom) (children : List Child)
    (d : Date) (k : Int) :
    monthCounts classrooms children d k =
      (children.countP (enrolledPred classrooms d k) : Int) := by
  unfold monthCounts
  rw [foldl_countStep_char]
  simp

/-- What the per-classroom push loop of one trend month leaves at key `k`. -/
theorem foldl_trendPush_char (monthLabel : String) (monthStats : Int → Int)
    (m : Int) (classrooms : List Classroom) (data : Int → List TrendPoint) (k : Int) :
    (classrooms.foldl (trendPush monthLabel monthStats m) data) k =
      data k ++ (classrooms.filter (fun c => k == c.id)).map
        (fun c => ⟨monthLabel, monthStats c.id, c.capacity, decide (m > 0)⟩) := by
  induction classrooms generalizing data with
  | nil => simp
  | cons c cs ih =>
    rw [List.foldl_cons, ih]
    by_cases hk : k = c.id
    · simp [trendPush, List.filter_cons, hk]
    · simp [trendPush, List.filter_cons, hk]

/-- What the month loop of `trendData` leaves at key `k`. -/
theorem foldl_trendMonth_char (classrooms : List Classroom) (children : List Child)
    (forecastDate : Date) (ms : List Int) (data : Int → List TrendPoint) (k : Int) :
    (ms.foldl (trendMonth classrooms children forecastDate) data) k =
      data k ++ (ms.map (fun m => trendPointsAt classrooms children forecastDate m k)).flatten := by
  induction ms generalizing data with
  | nil => simp
  | cons m ms ih =>
    rw [List.foldl_cons, ih]
    show (trendMonth classrooms children forecastDate data m) k ++ _ = _
    rw [trendMonth]
    rw [foldl_trendPush_char]
    simp [trendPointsAt, List.append_assoc]

/-- `trendData` at key `k` as a flat list of per-month points. -/
theorem trendData_char (classrooms : List Classroom) (children : List Child)
    (forecastDate : Date) (k : Int) :
    trendData classrooms children forecastDate k =
      (offsets.map (fun m => trendPointsAt classrooms children forecastDate m k)).flatten := by
  unfold trendData
  rw [foldl_trendMonth_char]
  simp

/-- With pairwise distinct classroom ids, filtering the classroom list for the
id of a member keeps exactly that member (`p` is any test equivalent to the id
comparison). -/
theorem filter_by_id_singleton {classrooms : List Classroom} {c : Classroom}
    (p : Classroom → Bool) (hp : ∀ x, p x = true ↔ x.id = c.id)
    (hnd : (classrooms.map (fun x => x.id)).Nodup) (hc : c ∈ classrooms) :
    classrooms.filter p = [c] := by
  induction classrooms with
  | nil => cases hc
  | cons a tl ih =>
    rw [List.map_cons, List.nodup_cons] at hnd
    rcases List.mem_cons.1 hc with rfl | htl
    · rw [List.filter_cons, if_pos ((hp c).2 rfl)]
      have hnil : tl.filter p = [] := by
        refine List.filter_eq_nil_iff.2 fun x hx hpx => ?_
        exact hnd.1 (by
          rw [← (hp x).1 hpx]
          exact List.mem_map.2 ⟨x, hx, rfl⟩)
      rw [hnil]
    · have ha : ¬ p a = true := by
        intro hpa
        exact hnd.1 (by
          rw [(hp a).1 hpa]
          exact List.mem_map.2 ⟨c, htl, rfl⟩)
      rw [List.filter_cons, if_neg ha, ih hnd.2 htl]

/-- With pairwise distinct classroom ids, the by-id lookup of a member finds
exactly that member. -/
theorem find?_by_id {classrooms : List Classroom} {c : Classroom}
    (p : Classroom → Bool) (hp : ∀ x, p x = true ↔ x.id = c.id)
    (hnd : (classrooms.map (fun x => x.id)).Nodup) (hc : c ∈ classrooms) :
    classrooms.find? p = some c := by
  induction classrooms with
  | nil => cases hc
  | cons a tl ih =>
    rw [List.map_cons, List.nodup_cons] at hnd
    rcases List.mem_cons.1 hc with rfl | htl
    · exact List.find?_cons_of_pos tl ((hp c).2 rfl)
    · have ha : ¬ p a = true := by
        intro hpa
        exact hnd.1 (by
          rw [(hp a).1 hpa]
          exact List.mem_map.2 ⟨c, htl, rfl⟩)
      rw [List.find?_cons_of_neg tl ha]
      exact ih hnd.2 htl

/-- Counting two disjoint tests separately counts their union. -/
theorem countP_add_of_disjoint {α : Type} (p q : α → Bool)
    (h : ∀ x, ¬(p x = true ∧ q x = true)) (l : List α) :
    l.countP p + l.countP q = l.countP (fun x => p x || q x) := by
  induction l with
  | nil => simp
  | cons x xs ih =>
    have key : ((if p x = true then 1 else 0) + if q x = true then 1 else 0)
        = if (p x || q x) = true then 1 else 0 := by
      cases hp : p x with
      | true =>
        cases hq : q x with
        | true => exact absurd ⟨hp, hq⟩ (h x)
        | false => decide
      | false => cases hq : q x <;> decide
    rw [List.countP_cons, List.countP_cons, List.countP_cons, ← ih]
    omega

/-- Membership in the distinct-key list of the `stats` object. -/
theorem mem_statKeys_iff (classrooms : List Classroom) (k : Int) :
    k ∈ statKeys classrooms ↔ classrooms.any (fun c => c.id == k) = true := by
  unfold statKeys
  rw [List.mem_dedup, List.mem_map, List.any_eq_true]
  constructor
  · rintro ⟨c, hc, rfl⟩
    exact ⟨c, hc, by simp⟩
  · rintro ⟨c, hc, hk⟩
    exact ⟨c, hc, by simpa using hk.symm⟩

/-- Summing the per-key assignment counts over pairwise distinct keys counts
the children assigned to any of those keys. -/
theorem sum_countP_keys (classrooms : List Classroom) (children : List Child)
    (d : Date) (ks : List Int) (hnd : ks.Nodup) :
    (ks.map (fun k => children.countP (enrolledPred classrooms d k))).sum =
      children.countP (fun ch =>
        (getClassroomForChild ch d classrooms).any (fun x => ks.contains x)) := by
  induction ks with
  | nil =>
    simp only [List.map_nil, List.sum_nil]
    rw [eq_comm, List.countP_eq_zero]
    intro ch _
    cases getClassroomForChild ch d classrooms <;> simp
  | cons a ks ih =>
    rw [List.nodup_cons] at hnd
    rw [List.map_cons, List.sum_cons, ih hnd.2]
    rw [countP_add_of_disjoint]
    · apply List.countP_congr
      intro ch _
      cases hA : getClassroomForChild ch d classrooms <;>
        simp [enrolledPred, hA, List.contains_cons]
    · rintro ch ⟨hp, hq⟩
      simp only [enrolledPred, beq_iff_eq] at hp
      rw [hp] at hq
      simp only [Option.any_some] at hq
      exact hnd.1 (by simpa using hq)

/-! The claims. -/

/-- C1: a child's assigned classroom is the first classroom in list order
whose half-open band [minAgeMonths, maxAgeMonths) contains the child's
whole-month age at the target date; a child is on the roster keyed by a
classroom's id exactly when it is in the child list and assigned there, and
when no band contains the age the child is omitted from every classroom's
roster at that date. -/
theorem assignment_first_matching_band (classrooms : List Classroom)
    (children : List Child) (d : Date) (ch : Child) :
    (∀ cid, getClassroomForChild ch d classrooms = some cid ↔
       ∃ pre c post, classrooms = pre ++ c :: post ∧ c.id = cid ∧
         (c.minAgeMonths ≤ differenceInMonths d ch.birthDate ∧
           differenceInMonths d ch.birthDate < c.maxAgeMonths) ∧
         ∀ c' ∈ pre, ¬(c'.minAgeMonths ≤ differenceInMonths d ch.birthDate ∧
           differenceInMonths d ch.birthDate < c'.maxAgeMonths))
    ∧ (getClassroomForChild ch d classrooms = none ↔
       ∀ c ∈ classrooms, ¬(c.minAgeMonths ≤ differenceInMonths d ch.birthDate ∧
         differenceInMonths d ch.birthDate < c.maxAgeMonths))
    ∧ (∀ c ∈ classrooms,
        (ch ∈ roster classrooms children d c.id ↔
          ch ∈ children ∧ getClassroomForChild ch d classrooms = some c.id))
    ∧ (getClassroomForChild ch d classrooms = none →
        ∀ c ∈ classrooms, ch ∉ roster classrooms children d c.id) := by
  refine ⟨?_, ?_, ?_, ?_⟩
  · intro cid
    unfold getClassroomForChild
    constructor
    · intro h
      rcases Option.map_eq_some'.1 h with ⟨c, hfind, hcid⟩
      rcases List.find?_eq_some.1 hfind with ⟨hpc, pre, post, heq, hpre⟩
      refine ⟨pre, c, post, heq, hcid, ?_, ?_⟩
      · simpa [ge_iff_le, decide_eq_true_eq] using hpc
      · intro c' hc'
        have h2 := hpre c' hc'
        simp only [Bool.not_eq_eq_eq_not, Bool.not_true, Bool.and_eq_false_imp,
          decide_eq_true_eq, decide_eq_false_iff_not, ge_iff_le] at h2
        omega
    · rintro ⟨pre, c, post, heq, hcid, hband, hpre⟩
      have hfind : classrooms.find? (fun c =>
          decide (differenceInMonths d ch.birthDate ≥ c.minAgeMonths) &&
            decide (differenceInMonths d ch.birthDate < c.maxAgeMonths)) = some c := by
        refine List.find?_eq_some.2 ⟨?_, pre, post, heq, ?_⟩
        · simpa [ge_iff_le, decide_eq_true_eq] using hband
        · intro a ha
          have h2 := hpre a ha
          simp only [Bool.not_eq_eq_eq_not, Bool.not_true, Bool.and_eq_false_imp,
            decide_eq_true_eq, decide_eq_false_iff_not, ge_iff_le]
          push_neg at h2
          omega
      simp [hfind, hcid]
  · unfold getClassroomForChild
    rw [Option.map_eq_none', List.find?_eq_none]
    constructor
    · intro h c hc hband
      exact h c hc (by
        simp only [Bool.and_eq_true, decide_eq_true_eq]
        exact ⟨hband.1, hband.2⟩)
    · intro h c hc hp
      simp only [Bool.and_eq_true, decide_eq_true_eq] at hp
      exact h c hc ⟨hp.1, hp.2⟩
  · intro c _
    exact mem_roster_iff classrooms children d c.id ch
  · intro hnone c hc hmem
    have := (mem_roster_iff classrooms children d c.id ch).1 hmem
    rw [hnone] at this
    exact Option.noConfusion this.2

/-- The alert selection for a listed classroom, phrased over its roster. -/
theorem classroomInsight_char (classrooms : List Classroom) (children : List Child)
    (d : Date) (c : Classroom) (hc : c ∈ classrooms) :
    classroomInsight classrooms children d c =
      (if 1 < ((roster classrooms children d c.id).length : ℚ) / (c.capacity : ℚ) then
        some ⟨.critical,
          criticalMessage c.name (c.capacity - ((roster classrooms children d c.id).length : Int)),
          c.id⟩
      else if (9 : ℚ)/10 ≤ ((roster classrooms children d c.id).length : ℚ) / (c.capacity : ℚ) then
        some ⟨.warning,
          warningMessage c.name (c.capacity - ((roster classrooms children d c.id).length : Int)),
          c.id⟩
      else if ((roster classrooms children d c.id).length : ℚ) / (c.capacity : ℚ) ≤ (6 : ℚ)/10 then
        some ⟨.opportunity,
          opportunityMessage c.name (c.capacity - ((roster classrooms children d c.id).length : Int)),
          c.id⟩
      else none) := by
  have hk : classrooms.any (fun x => x.id == c.id) = true :=
    List.any_eq_true.2 ⟨c, hc, by simp⟩
  have hchar := forecastStats_char classrooms children d c.id hk
  have hrost := roster_eq classrooms children d c.id hk
  simp only [classroomInsight, hchar, hrost]
  norm_cast

/-- C2: for a listed classroom with positive capacity, the critical alert
fires exactly when the enrolled count strictly exceeds the capacity, the
over-capacity amount in it is enrolled − capacity, and at enrolled = capacity
(ratio exactly 1) the classroom gets a warning alert instead. -/
theorem critical_alert_iff_over_capacity (classrooms : List Classroom)
    (children : List Child) (d : Date) (c : Classroom)
    (hc : c ∈ classrooms) (hcap : 0 < c.capacity) :
    ((∃ m, classroomInsight classrooms children d c = some ⟨.critical, m, c.id⟩) ↔
       c.capacity < ((roster classrooms children d c.id).length : Int))
    ∧ (c.capacity < ((roster classrooms children d c.id).length : Int) →
        classroomInsight classrooms children d c =
          some ⟨.critical,
            criticalMessage c.name
              (c.capacity - ((roster classrooms children d c.id).length : Int)),
            c.id⟩
          ∧ ((c.capacity - ((roster classrooms children d c.id).length : Int)).natAbs : Int)
              = ((roster classrooms children d c.id).length : Int) - c.capacity)
    ∧ (((roster classrooms children d c.id).length : Int) = c.capacity →
        classroomInsight classrooms children d c =
          some ⟨.warning, warningMessage c.name 0, c.id⟩) := by
  have hchar := classroomInsight_char classrooms children d c hc
  have hcapQ : (0 : ℚ) < (c.capacity : ℚ) := by exact_mod_cast hcap
  have hover : 1 < ((roster classrooms children d c.id).length : ℚ) / (c.capacity : ℚ) ↔
      c.capacity < ((roster classrooms children d c.id).length : Int) := by
    rw [one_lt_div hcapQ]
    exact_mod_cast Iff.rfl
  refine ⟨?_, ?_, ?_⟩
  · constructor
    · rintro ⟨m, hm⟩
      by_contra hno
      rw [hchar] at hm
      rw [if_neg (fun h1 => hno (hover.1 h1))] at hm
      by_cases h9 : (9 : ℚ)/10 ≤ ((roster classrooms children d c.id).length : ℚ) / (c.capacity : ℚ)
      · rw [if_pos h9] at hm
        exact InsightType.noConfusion (congrArg Insight.type (Option.some.inj hm)).symm
      · rw [if_neg h9] at hm
        by_cases h6 : ((roster classrooms children d c.id).length : ℚ) / (c.capacity : ℚ) ≤ (6 : ℚ)/10
        · rw [if_pos h6] at hm
          exact InsightType.noConfusion (congrArg Insight.type (Option.some.inj hm)).symm
        · rw [if_neg h6] at hm
          exact Option.noConfusion hm
    · intro h
      refine ⟨criticalMessage c.name
        (c.capacity - ((roster classrooms children d c.id).length : Int)), ?_⟩
      rw [hchar, if_pos (hover.2 h)]
  · intro h
    refine ⟨by rw [hchar, if_pos (hover.2 h)], ?_⟩
    omega
  · intro h
    have hr : ((roster classrooms children d c.id).length : ℚ) / (c.capacity : ℚ) = 1 := by
      rw [show ((roster classrooms children d c.id).length : ℚ) = (c.capacity : ℚ) by
        exact_mod_cast h]
      exact div_self (ne_of_gt hcapQ)
    rw [hchar, hr]
    rw [if_neg (by norm_num), if_pos (by norm_num)]
    rw [show c.capacity - ((roster classrooms children d c.id).length : Int) = 0 by omega]

/-- C2 witness: a capacity-1 infant room with two enrolled infants at the
sample target date is strictly over capacity, so its critical alert fires. -/
theorem critical_alert_iff_over_capacity_witness :
    (∃ m, classroomInsight [tinyC] [childAlpha, childGamma] sampleTarget tinyC =
        some ⟨.critical, m, tinyC.id⟩) ↔
      tinyC.capacity <
        ((roster [tinyC] [childAlpha, childGamma] sampleTarget tinyC.id).length : Int) :=
  (critical_alert_iff_over_capacity [tinyC] [childAlpha, childGamma] sampleTarget tinyC
    (by decide) (by decide)).1

/-- C3 counterexample: a POST body with capacity 0 (all six fields present)
is not rejected with 400 — it passes `insertClassroomSchema`, gets status
201, and the record reaches the store. -/
theorem capacity_zero_not_rejected_cex :
    (postClassrooms ⟨[], 1⟩
        ⟨some "Infants", some "bg-blue-100", some 0, some 12, some 0, some "1:4"⟩).1 ≠ 400
    ∧ (postClassrooms ⟨[], 1⟩
        ⟨some "Infants", some "bg-blue-100", some 0, some 12, some 0, some "1:4"⟩).1 = 201
    ∧ (postClassrooms ⟨[], 1⟩
        ⟨some "Infants", some "bg-blue-100", some 0, some 12, some 0, some "1:4"⟩).2.classroomsTbl =
        [⟨1, "Infants", "bg-blue-100", 0, 12, 0, "1:4"⟩] :=
  ⟨by decide, rfl, rfl⟩

/-- C3 (amended): `insertClassroomSchema` checks only that every non-id field
is present with its type, so a create request whose capacity is ≤ 0 passes
validation, returns 201 and appends the record (with the submitted capacity)
to the store. -/
theorem capacity_nonpositive_accepted (st : Store) (n co r : String)
    (mi ma cap : Int) (_hcap : cap ≤ 0) :
    insertClassroomSafeParse ⟨some n, some co, some mi, some ma, some cap, some r⟩ =
      some ⟨n, co, mi, ma, cap, r⟩
    ∧ postClassrooms st ⟨some n, some co, some mi, some ma, some cap, some r⟩ =
        (201, ⟨st.classroomsTbl ++ [⟨st.nextClassroomId, n, co, mi, ma, cap, r⟩],
          st.nextClassroomId + 1⟩) :=
  ⟨rfl, rfl⟩

/-- C3 witness: the capacity-0 body at an empty store. -/
theorem capacity_nonpositive_accepted_witness :
    insertClassroomSafeParse
        ⟨some "Infants", some "bg-blue-100", some 0, some 12, some 0, some "1:4"⟩ =
      some ⟨"Infants", "bg-blue-100", 0, 12, 0, "1:4"⟩
    ∧ postClassrooms ⟨[], 1⟩
        ⟨some "Infants", some "bg-blue-100", some 0, some 12, some 0, some "1:4"⟩ =
        (201, ⟨[⟨1, "Infants", "bg-blue-100", 0, 12, 0, "1:4"⟩], 2⟩) :=
  capacity_nonpositive_accepted ⟨[], 1⟩ "Infants" "bg-blue-100" "1:4" 0 12 0 (by decide)

/-- Updating a row never changes its id. -/
theorem applyClassroomPatch_id (p : ClassroomPayload) (c : Classroom) :
    (applyClassroomPatch p c).id = c.id := rfl

/-- With pairwise distinct ids, updating the table at the id of a member
leaves exactly the patched member at that id. -/
theorem update_filter_char (p : ClassroomPayload) (i : Int) :
    ∀ tbl : List Classroom, (tbl.map (fun c => c.id)).Nodup →
      ∀ c ∈ tbl, c.id = i →
        (tbl.map (fun x => if x.id == i then applyClassroomPatch p x else x)).filter
            (fun x => x.id == i) = [applyClassroomPatch p c] := by
  intro tbl
  induction tbl with
  | nil => intro _ c hc; cases hc
  | cons a tl ih =>
    intro hnd c hc hci
    rw [List.map_cons, List.nodup_cons] at hnd
    rcases List.mem_cons.1 hc with rfl | htl
    · rw [List.map_cons, if_pos (by simpa using hci), List.filter_cons,
        if_pos (by simpa [applyClassroomPatch_id] using hci)]
      have hnil : (tl.map (fun x =>
          if x.id == i then applyClassroomPatch p x else x)).filter
            (fun x => x.id == i) = [] := by
        refine List.filter_eq_nil_iff.2 fun y hy => ?_
        rcases List.mem_map.1 hy with ⟨x, hx, rfl⟩
        have hxi : ¬ x.id = i := by
          intro h
          exact hnd.1 (List.mem_map.2 ⟨x, hx, h.trans hci.symm⟩)
        rw [if_neg (by simpa using hxi)]
        simpa using hxi
      rw [hnil]
    · have hai : ¬ a.id = i := by
        intro h
        exact hnd.1 (List.mem_map.2 ⟨c, htl, hci.trans h.symm⟩)
      rw [List.map_cons, if_neg (by simpa using hai), List.filter_cons,
        if_neg (by simpa using hai)]
      exact ih hnd.2 c htl hci

/-- C9 counterexample: the all-absent patch (the body `{}`, accepted by
`insertClassroomSchema.partial()`) on a table holding the matching record does
not return the unchanged row — drizzle's `mapUpdateSet` throws
`No values to set`, and the route propagates the exception instead of
answering 200 or 404. -/
theorem empty_patch_throws_cex :
    updateClassroom [infantsC] 1 ⟨none, none, none, none, none, none⟩ =
      .error "No values to set"
    ∧ updateClassroom [infantsC] 1 ⟨none, none, none, none, none, none⟩ ≠
        .ok (some infantsC, [infantsC])
    ∧ patchClassroom ⟨[infantsC], 2⟩ 1 ⟨none, none, none, none, none, none⟩ =
        .error "No values to set" :=
  ⟨rfl, fun h => Except.noConfusion h, rfl⟩

/-- C9 (amended): a partial update patch with at least one present field
applies exactly the fields present, leaves every other field (including the
id) unchanged and leaves every other record in the table; when no record has
the id, the update returns nothing, the table is unchanged, and the PATCH
route answers 404 with the store unchanged. A patch with no present field
instead makes the underlying UPDATE throw `No values to set`. -/
theorem update_classroom_patch_semantics (tbl : List Classroom) (i : Int)
    (p : ClassroomPayload) (hnd : (tbl.map (fun c => c.id)).Nodup) :
    (p.hasValues = true →
      (∀ c ∈ tbl, c.id = i →
        updateClassroom tbl i p =
          .ok (some (applyClassroomPatch p c),
            tbl.map (fun x => if x.id == i then applyClassroomPatch p x else x))
        ∧ (applyClassroomPatch p c).id = c.id
        ∧ (applyClassroomPatch p c).name = p.name.getD c.name
        ∧ (applyClassroomPatch p c).color = p.color.getD c.color
        ∧ (applyClassroomPatch p c).minAgeMonths = p.minAgeMonths.getD c.minAgeMonths
        ∧ (applyClassroomPatch p c).maxAgeMonths = p.maxAgeMonths.getD c.maxAgeMonths
        ∧ (applyClassroomPatch p c).capacity = p.capacity.getD c.capacity
        ∧ (applyClassroomPatch p c).ratio = p.ratio.getD c.ratio
        ∧ ∀ c' ∈ tbl, ¬ c'.id = i →
            c' ∈ tbl.map (fun x => if x.id == i then applyClassroomPatch p x else x))
      ∧ ((∀ c ∈ tbl, ¬ c.id = i) →
          updateClassroom tbl i p = .ok (none, tbl)
          ∧ ∀ st : Store, st.classroomsTbl = tbl →
              patchClassroom st i p = .ok (404, none, st)))
    ∧ (p.hasValues = false →
        updateClassroom tbl i p = .error "No values to set") := by
  constructor
  · intro hv
    have hbranch : updateClassroom tbl i p =
        .ok (((tbl.map (fun x => if x.id == i then applyClassroomPatch p x else x)).filter
            (fun x => x.id == i)).head?,
          tbl.map (fun x => if x.id == i then applyClassroomPatch p x else x)) := by
      simp only [updateClassroom]
      rw [if_pos hv]
    constructor
    · intro c hc hci
      refine ⟨?_, rfl, rfl, rfl, rfl, rfl, rfl, rfl, ?_⟩
      · rw [hbranch, update_filter_char p i tbl hnd c hc hci]
        rfl
      · intro c' hc' hci'
        exact List.mem_map.2 ⟨c', hc', by rw [if_neg (by simpa using hci')]⟩
    · intro hno
      have hmap : tbl.map (fun x => if x.id == i then applyClassroomPatch p x else x) = tbl := by
        conv_rhs => rw [← List.map_id tbl]
        refine List.map_congr_left fun x hx => ?_
        rw [if_neg (by simpa using hno x hx)]
        rfl
      have hfil : tbl.filter (fun x => x.id == i) = [] :=
        List.filter_eq_nil_iff.2 fun x hx => by simpa using hno x hx
      have hupd : updateClassroom tbl i p = .ok (none, tbl) := by
        rw [hbranch, hmap, hfil]
        rfl
      refine ⟨hupd, fun st hst => ?_⟩
      cases st with
      | mk tblst nid =>
        simp only at hst
        subst hst
        simp [patchClassroom, hupd]
  · intro hv
    simp only [updateClassroom]
    rw [if_neg (by simp [hv])]

/-- C9 witness: patching only the capacity of the Infants room. -/
theorem update_classroom_patch_semantics_witness :
    updateClassroom [infantsC, wobblersC] 1
        ⟨none, none, none, none, some 10, none⟩ =
      .ok (some (applyClassroomPatch ⟨none, none, none, none, some 10, none⟩ infantsC),
        [infantsC, wobblersC].map (fun x =>
          if x.id == 1 then applyClassroomPatch ⟨none, none, none, none, some 10, none⟩ x
          else x)) :=
  (((update_classroom_patch_semantics [infantsC, wobblersC] 1
        ⟨none, none, none, none, some 10, none⟩ (by decide)).1 (by decide)).1 infantsC
    (by decide) (by decide)).1

/-- Casting a summed count list to the integers commutes with the sum. -/
theorem sum_intCast_map {α : Type} (f : α → Nat) (l : List α) :
    (l.map (fun x => ((f x : Nat) : Int))).sum = (((l.map f).sum : Nat) : Int) := by
  induction l with
  | nil => simp
  | cons x xs ih => simp [ih]

/-- C10: a child is on at most one classroom's roster even when age bands
overlap, so the per-classroom enrolled counts sum to at most the number of
children — at the target date and at every shifted month of the trend
series. -/
theorem child_in_at_most_one_roster (classrooms : List Classroom)
    (children : List Child) (d : Date) :
    (∀ ch k1 k2, ch ∈ roster classrooms children d k1 →
        ch ∈ roster classrooms children d k2 → k1 = k2)
    ∧ ((statKeys classrooms).map
        (fun k => ((roster classrooms children d k).length : Int))).sum ≤
        (children.length : Int)
    ∧ ∀ m : Int, ((statKeys classrooms).map
        (fun k => monthCounts classrooms children (addMonths d m) k)).sum ≤
        (children.length : Int) := by
  refine ⟨?_, ?_, ?_⟩
  · intro ch k1 k2 h1 h2
    have e1 := (mem_roster_iff classrooms children d k1 ch).1 h1
    have e2 := (mem_roster_iff classrooms children d k2 ch).1 h2
    exact Option.some.inj (e1.2.symm.trans e2.2)
  · have hmap : (statKeys classrooms).map
        (fun k => ((roster classrooms children d k).length : Int)) =
        (statKeys classrooms).map
          (fun k => ((children.countP (enrolledPred classrooms d k) : Nat) : Int)) := by
      refine List.map_congr_left fun k hk => ?_
      rw [roster_length classrooms children d k ((mem_statKeys_iff classrooms k).1 hk)]
    rw [hmap, sum_intCast_map, sum_countP_keys classrooms children d
      (statKeys classrooms) (List.nodup_dedup _)]
    exact_mod_cast List.countP_le_length _
  · intro m
    have hmap : (statKeys classrooms).map
        (fun k => monthCounts classrooms children (addMonths d m) k) =
        (statKeys classrooms).map
          (fun k => ((children.countP
            (enrolledPred classrooms (addMonths d m) k) : Nat) : Int)) := by
      refine List.map_congr_left fun k _ => ?_
      rw [monthCounts_char]
    rw [hmap, sum_intCast_map, sum_countP_keys classrooms children (addMonths d m)
      (statKeys classrooms) (List.nodup_dedup _)]
    exact_mod_cast List.countP_le_length _

/-- Flattening a list of singletons is the list of their elements. -/
theorem flatten_map_singleton {α β : Type} (g : α → β) (l : List α) :
    (l.map (fun x => [g x])).flatten = l.map g := by
  induction l with
  | nil => simp
  | cons x xs ih => simp [ih]

/-- With pairwise distinct ids, the trend series of a listed classroom is one
point per month offset. -/
theorem trendData_eq_map_offsets (classrooms : List Classroom)
    (children : List Child) (forecastDate : Date) (c : Classroom)
    (hc : c ∈ classrooms) (hnd : (classrooms.map (fun x => x.id)).Nodup) :
    trendData classrooms children forecastDate c.id =
      offsets.map (fun m =>
        ⟨formatMMMyy (addMonths forecastDate m),
         monthCounts classrooms children (addMonths forecastDate m) c.id,
         c.capacity, decide (m > 0)⟩) := by
  rw [trendData_char]
  have hfil : classrooms.filter (fun x => c.id == x.id) = [c] :=
    filter_by_id_singleton (fun x => c.id == x.id)
      (fun x => by rw [beq_iff_eq]; exact eq_comm) hnd hc
  have hpts : ∀ m : Int, trendPointsAt classrooms children forecastDate m c.id =
      [⟨formatMMMyy (addMonths forecastDate m),
        monthCounts classrooms children (addMonths forecastDate m) c.id,
        c.capacity, decide (m > 0)⟩] := by
    intro m
    unfold trendPointsAt
    rw [hfil]
    rfl
  calc (offsets.map (fun m => trendPointsAt classrooms children forecastDate m c.id)).flatten
      = (offsets.map (fun m =>
          [(⟨formatMMMyy (addMonths forecastDate m),
            monthCounts classrooms children (addMonths forecastDate m) c.id,
            c.capacity, decide (m > 0)⟩ : TrendPoint)])).flatten := by
        rw [List.map_congr_left fun m _ => hpts m]
    _ = _ := flatten_map_singleton _ offsets

/-- C4: the trend series of a listed classroom has exactly 25 points, one per
month offset −12..+12; the point at index i carries the label of the shifted
date, the enrolled count obtained by re-running the full bucketing at that
shifted date, the classroom's constant capacity, and the forecast flag
exactly when the offset is positive. -/
theorem trend_series_points (classrooms : List Classroom) (children : List Child)
    (forecastDate : Date) (c : Classroom) (hc : c ∈ classrooms)
    (hnd : (classrooms.map (fun x => x.id)).Nodup) :
    (trendData classrooms children forecastDate c.id).length = 25
    ∧ ∀ (i : Nat) (hi : i < (trendData classrooms children forecastDate c.id).length),
        (trendData classrooms children forecastDate c.id).get ⟨i, hi⟩ =
          ⟨formatMMMyy (addMonths forecastDate ((i : Int) - 12)),
           ((roster classrooms children
              (addMonths forecastDate ((i : Int) - 12)) c.id).length : Int),
           c.capacity,
           decide ((i : Int) - 12 > 0)⟩ := by
  have htd := trendData_eq_map_offsets classrooms children forecastDate c hc hnd
  have hk : classrooms.any (fun x => x.id == c.id) = true :=
    List.any_eq_true.2 ⟨c, hc, by simp⟩
  have hlen : (trendData classrooms children forecastDate c.id).length = 25 := by
    rw [htd, List.length_map]
    simp only [offsets, List.length_map, List.length_range]
  refine ⟨hlen, ?_⟩
  intro i hi
  have hcount : monthCounts classrooms children
      (addMonths forecastDate ((i : Int) - 12)) c.id =
      ((roster classrooms children
        (addMonths forecastDate ((i : Int) - 12)) c.id).length : Int) := by
    rw [monthCounts_char, roster_length classrooms children _ c.id hk]
  rw [List.get_eq_getElem]
  simp only [htd, List.getElem_map]
  have hoffl : i < offsets.length := by
    simpa only [htd, List.length_map] using hi
  have hoff : offsets[i] = (i : Int) - 12 := by
    simp only [offsets, List.getElem_map, List.getElem_range]
  rw [hoff, hcount]

/-- C4 witness: the Infants room's trend series at the sample data. -/
theorem trend_series_points_witness :
    (trendData [infantsC, wobblersC] [childAlpha, childBeta] sampleTarget
      infantsC.id).length = 25 :=
  (trend_series_points [infantsC, wobblersC] [childAlpha, childBeta] sampleTarget
    infantsC (by decide) (by decide)).1

/-- C5: for a listed classroom with distinct ids, a child is in the
graduating-soon set exactly when it is enrolled there and the classroom's
maxAgeMonths minus its whole-month age is at most 3, and the
graduating-next-month badge counts exactly the enrolled children for which
that difference is at most 1. -/
theorem graduating_soon_and_next_month (classrooms : List Classroom)
    (children : List Child) (d : Date) (c : Classroom) (ch : Child)
    (hc : c ∈ classrooms) (hnd : (classrooms.map (fun x => x.id)).Nodup) :
    (ch ∈ graduatingSoonList classrooms children d c.id ↔
      ch ∈ children ∧ getClassroomForChild ch d classrooms = some c.id ∧
        c.maxAgeMonths - getChildAgeInMonths ch.birthDate d ≤ 3)
    ∧ graduatingNextMonthCount classrooms children d c.id =
        (children.countP (fun x =>
          enrolledPred classrooms d c.id x &&
            decide (c.maxAgeMonths - getChildAgeInMonths x.birthDate d ≤ 1)) : Int) := by
  have hk : classrooms.any (fun x => x.id == c.id) = true :=
    List.any_eq_true.2 ⟨c, hc, by simp⟩
  have hchar := forecastStats_char classrooms children d c.id hk
  have hfind : classrooms.find? (fun x => x.id == c.id) = some c :=
    find?_by_id (fun x => x.id == c.id) (fun x => beq_iff_eq) hnd hc
  have hsoon : ∀ x, soonCond classrooms d c.id x =
      decide (c.maxAgeMonths - getChildAgeInMonths x.birthDate d ≤ 3) := by
    intro x
    unfold soonCond
    rw [hfind]
  have hnext : ∀ x, nextCond classrooms d c.id x =
      decide (c.maxAgeMonths - getChildAgeInMonths x.birthDate d ≤ 1) := by
    intro x
    unfold nextCond
    rw [hfind]
  constructor
  · simp only [graduatingSoonList, hchar]
    rw [List.mem_filter]
    simp only [hsoon, enrolledPred, Bool.and_eq_true, decide_eq_true_eq, beq_iff_eq,
      and_assoc]
  · simp only [graduatingNextMonthCount, hchar]
    norm_cast
    apply List.countP_congr
    intro x _
    rw [hsoon, hnext]
    by_cases h1 : c.maxAgeMonths - getChildAgeInMonths x.birthDate d ≤ 1
    · have h3 : c.maxAgeMonths - getChildAgeInMonths x.birthDate d ≤ 3 := by omega
      simp [h1, h3]
    · simp [h1]

/-- C5 witness: in the seeded Infants [0,12) room, the child born 15 January
2025 has age 11 at the 15 December 2025 target, months-to-graduation 1, and is
counted graduating next month. -/
theorem graduating_soon_and_next_month_witness :
    ((childAlpha ∈ graduatingSoonList [infantsC, wobblersC] [childAlpha, childBeta]
          sampleTarget infantsC.id ↔
        childAlpha ∈ [childAlpha, childBeta] ∧
          getClassroomForChild childAlpha sampleTarget [infantsC, wobblersC] =
            some infantsC.id ∧
          infantsC.maxAgeMonths -
            getChildAgeInMonths childAlpha.birthDate sampleTarget ≤ 3)
      ∧ graduatingNextMonthCount [infantsC, wobblersC] [childAlpha, childBeta]
          sampleTarget infantsC.id =
          (([childAlpha, childBeta].countP (fun x =>
            enrolledPred [infantsC, wobblersC] sampleTarget infantsC.id x &&
              decide (infantsC.maxAgeMonths -
                getChildAgeInMonths x.birthDate sampleTarget ≤ 1))) : Int))
    ∧ getChildAgeInMonths childAlpha.birthDate sampleTarget = 11
    ∧ infantsC.maxAgeMonths - getChildAgeInMonths childAlpha.birthDate sampleTarget = 1
    ∧ graduatingNextMonthCount [infantsC, wobblersC] [childAlpha, childBeta]
        sampleTarget infantsC.id = 1 :=
  ⟨graduating_soon_and_next_month [infantsC, wobblersC] [childAlpha, childBeta]
      sampleTarget infantsC childAlpha (by decide) (by decide),
    by decide, by decide, by decide⟩

/-- Every insight produced for a listed classroom carries that classroom's
id. -/
theorem classroomInsight_id (classrooms : List Classroom) (children : List Child)
    (d : Date) :
    ∀ x ∈ classrooms, ∀ i, classroomInsight classrooms children d x = some i →
      i.classroomId = x.id := by
  intro x hx i h
  rw [classroomInsight_char classrooms children d x hx] at h
  split_ifs at h with h1 h2 h3
  · exact Option.some.inj h ▸ rfl
  · exact Option.some.inj h ▸ rfl
  · exact Option.some.inj h ▸ rfl

/-- The insights filtered to one classroom id are at most as many as the
classrooms with that id. -/
theorem filterMap_filter_len (f : Classroom → Option Insight) (k : Int) :
    ∀ classrooms : List Classroom,
      (∀ x ∈ classrooms, ∀ i, f x = some i → i.classroomId = x.id) →
      ((classrooms.filterMap f).filter (fun i => i.classroomId == k)).length ≤
        (classrooms.filter (fun x => x.id == k)).length := by
  intro classrooms
  induction classrooms with
  | nil => intro _; simp
  | cons a tl ih =>
    intro hid
    have htl := ih fun x hx => hid x (List.mem_cons_of_mem a hx)
    rw [List.filterMap_cons]
    cases hfa : f a with
    | none =>
      rw [List.filter_cons]
      by_cases hak : (a.id == k) = true
      · rw [if_pos hak]
        exact le_trans htl (Nat.le_succ _)
      · rw [if_neg hak]
        exact htl
    | some i =>
      have hik : i.classroomId = a.id := hid a (List.mem_cons_self a tl) i hfa
      rw [List.filter_cons, List.filter_cons]
      by_cases hak : a.id = k
      · rw [if_pos (show (i.classroomId == k) = true by simp [hik, hak]),
          if_pos (show (a.id == k) = true by simpa using hak)]
        simpa using Nat.succ_le_succ htl
      · rw [if_neg (show ¬ (i.classroomId == k) = true by simp [hik, hak]),
          if_neg (show ¬ (a.id == k) = true by simpa using hak)]
        exact htl

/-- With pairwise distinct ids, at most one classroom of the list has a given
id. -/
theorem length_filter_id_le_one (classrooms : List Classroom) (k : Int)
    (hnd : (classrooms.map (fun x => x.id)).Nodup) :
    (classrooms.filter (fun x => x.id == k)).length ≤ 1 := by
  induction classrooms with
  | nil => simp
  | cons a tl ih =>
    rw [List.map_cons, List.nodup_cons] at hnd
    rw [List.filter_cons]
    by_cases hak : (a.id == k) = true
    · rw [if_pos hak]
      have hnil : tl.filter (fun x => x.id == k) = [] := by
        refine List.filter_eq_nil_iff.2 fun x hx h => ?_
        apply hnd.1
        have hxk : x.id = k := by simpa using h
        have hak2 : a.id = k := by simpa using hak
        rw [hak2, ← hxk]
        exact List.mem_map.2 ⟨x, hx, rfl⟩
      rw [hnil]
      simp
    · rw [if_neg hak]
      exact ih hnd.2

/-- C6: a listed classroom with a distinct id and positive capacity receives
at most one capacity alert, chosen by first-matching priority: critical when
over capacity, else warning when the enrolled/capacity ratio is at least 0.9,
else opportunity when the ratio is at most 0.6, else no alert. -/
theorem capacity_alert_mutually_exclusive (classrooms : List Classroom)
    (children : List Child) (d : Date) (c : Classroom) (hc : c ∈ classrooms)
    (hnd : (classrooms.map (fun x => x.id)).Nodup) (hcap : 0 < c.capacity) :
    ((capacityInsights classrooms children d).filter
        (fun i => i.classroomId == c.id)).length ≤ 1
    ∧ (c.capacity < ((roster classrooms children d c.id).length : Int) →
        classroomInsight classrooms children d c =
          some ⟨.critical,
            criticalMessage c.name
              (c.capacity - ((roster classrooms children d c.id).length : Int)), c.id⟩)
    ∧ (¬ c.capacity < ((roster classrooms children d c.id).length : Int) →
        (9 : ℚ)/10 ≤ ((roster classrooms children d c.id).length : ℚ) / (c.capacity : ℚ) →
        classroomInsight classrooms children d c =
          some ⟨.warning,
            warningMessage c.name
              (c.capacity - ((roster classrooms children d c.id).length : Int)), c.id⟩)
    ∧ (¬ c.capacity < ((roster classrooms children d c.id).length : Int) →
        ¬ (9 : ℚ)/10 ≤ ((roster classrooms children d c.id).length : ℚ) / (c.capacity : ℚ) →
        ((roster classrooms children d c.id).length : ℚ) / (c.capacity : ℚ) ≤ (6 : ℚ)/10 →
        classroomInsight classrooms children d c =
          some ⟨.opportunity,
            opportunityMessage c.name
              (c.capacity - ((roster classrooms children d c.id).length : Int)), c.id⟩)
    ∧ (¬ c.capacity < ((roster classrooms children d c.id).length : Int) →
        ¬ (9 : ℚ)/10 ≤ ((roster classrooms children d c.id).length : ℚ) / (c.capacity : ℚ) →
        ¬ ((roster classrooms children d c.id).length : ℚ) / (c.capacity : ℚ) ≤ (6 : ℚ)/10 →
        classroomInsight classrooms children d c = none) := by
  have hchar := classroomInsight_char classrooms children d c hc
  have hcapQ : (0 : ℚ) < (c.capacity : ℚ) := by exact_mod_cast hcap
  have hover : 1 < ((roster classrooms children d c.id).length : ℚ) / (c.capacity : ℚ) ↔
      c.capacity < ((roster classrooms children d c.id).length : Int) := by
    rw [one_lt_div hcapQ]
    exact_mod_cast Iff.rfl
  refine ⟨?_, ?_, ?_, ?_, ?_⟩
  · exact le_trans
      (filterMap_filter_len (classroomInsight classrooms children d) c.id classrooms
        (classroomInsight_id classrooms children d))
      (length_filter_id_le_one classrooms c.id hnd)
  · intro h
    rw [hchar, if_pos (hover.2 h)]
  · intro h h9
    rw [hchar, if_neg (fun h1 => h (hover.1 h1)), if_pos h9]
  · intro h h9 h6
    rw [hchar, if_neg (fun h1 => h (hover.1 h1)), if_neg h9, if_pos h6]
  · intro h h9 h6
    rw [hchar, if_neg (fun h1 => h (hover.1 h1)), if_neg h9, if_neg h6]

/-- C6 witness: the Infants room at the sample data gets at most one alert. -/
theorem capacity_alert_mutually_exclusive_witness :
    ((capacityInsights [infantsC, wobblersC] [childAlpha, childBeta] sampleTarget).filter
        (fun i => i.classroomId == infantsC.id)).length ≤ 1 :=
  (capacity_alert_mutually_exclusive [infantsC, wobblersC] [childAlpha, childBeta]
    sampleTarget infantsC (by decide) (by decide) (by decide)).1

/-- C7: permuting the child list never changes a roster's membership, and the
roster is always sorted by descending whole-month age at the target date. -/
theorem roster_perm_invariant_and_sorted (classrooms : List Classroom)
    (children children2 : List Child) (d : Date) (k : Int)
    (hp : children.Perm children2) :
    (∀ x, x ∈ roster classrooms children d k ↔ x ∈ roster classrooms children2 d k)
    ∧ (roster classrooms children d k).Sorted
        (fun a b => getChildAgeInMonths b.birthDate d ≤ getChildAgeInMonths a.birthDate d) := by
  constructor
  · intro x
    rw [mem_roster_iff, mem_roster_iff]
    exact hp.mem_iff.and Iff.rfl
  · by_cases hk : classrooms.any (fun x => x.id == k) = true
    · rw [roster_eq classrooms children d k hk]
      unfold sortByAgeDesc
      refine List.Pairwise.imp (fun hab => of_decide_eq_true hab)
        (List.sorted_mergeSort ?_ ?_ (children.filter (enrolledPred classrooms d k)))
      · intro a b e hab hbe
        exact decide_eq_true
          (le_trans (of_decide_eq_true hbe) (of_decide_eq_true hab))
      · intro a b
        rcases le_total (getChildAgeInMonths b.birthDate d)
          (getChildAgeInMonths a.birthDate d) with h | h
        · simp [h]
        · simp [h]
    · simp only [roster, forecastStats_none classrooms children d k hk]
      exact List.sorted_nil

/-- C7 witness: swapping the two sample children changes no roster membership
and the Infants roster stays sorted oldest first. -/
theorem roster_perm_invariant_and_sorted_witness :
    (∀ x, x ∈ roster [infantsC, wobblersC] [childAlpha, childBeta] sampleTarget infantsC.id ↔
       x ∈ roster [infantsC, wobblersC] [childBeta, childAlpha] sampleTarget infantsC.id)
    ∧ (roster [infantsC, wobblersC] [childAlpha, childBeta] sampleTarget infantsC.id).Sorted
        (fun a b => getChildAgeInMonths b.birthDate sampleTarget ≤
          getChildAgeInMonths a.birthDate sampleTarget) :=
  roster_perm_invariant_and_sorted [infantsC, wobblersC] [childAlpha, childBeta]
    [childBeta, childAlpha] sampleTarget infantsC.id
    (List.Perm.swap childBeta childAlpha [])

end LittleSteps
